import Mathlib

/-!
Verification development for the gperftools sampling-and-accounting layer:
the heap profile table (heap-profile-table.h) and the CPU profiler control
logic (profiler.cc), shallowly embedded over Nat / List / Option.

Machine words (`uintptr_t`) are modelled as `Nat` values below `2 ^ 64`;
the C bitwise operators map to `Nat.land` / `Nat.lor` with the 64-bit
complement written out explicitly.
-/

/-- Width bound of `uintptr_t` on the 64-bit targets the code runs on. -/
def uintptrBound : Nat := 2 ^ 64

/-- The 64-bit bitwise complement `~m` of a small mask `m`, as used by
`bucket_rep & ~uintptr_t(kMask)` in heap-profile-table.h. -/
def uintptrCompl (m : Nat) : Nat := 2 ^ 64 - 1 - m

/-- Splitting lemma for bitwise and: low bit times low bit plus the and of
the upper parts. -/
theorem nat_and_split (x y : Nat) :
    x &&& y = 2 * (x / 2 &&& y / 2) + (x % 2) * (y % 2) := by
  have hdiv : (x &&& y) / 2 = x / 2 &&& y / 2 := Nat.and_div_two
  have hmod : (x &&& y) % 2 = 1 ↔ x % 2 = 1 ∧ y % 2 = 1 := Nat.and_mod_two_eq_one
  have h2 := Nat.div_add_mod (x &&& y) 2
  rcases Nat.mod_two_eq_zero_or_one x with hx | hx <;>
    rcases Nat.mod_two_eq_zero_or_one y with hy | hy <;>
      rw [hx, hy] at hmod ⊢ <;> omega

/-- Splitting lemma for bitwise or. -/
theorem nat_or_split (x y : Nat) :
    x ||| y = 2 * (x / 2 ||| y / 2) + (x % 2 + y % 2 - (x % 2) * (y % 2)) := by
  have hdiv : (x ||| y) / 2 = x / 2 ||| y / 2 := Nat.or_div_two
  have hmod : (x ||| y) % 2 = 1 ↔ x % 2 = 1 ∨ y % 2 = 1 := Nat.or_mod_two_eq_one
  have h2 := Nat.div_add_mod (x ||| y) 2
  rcases Nat.mod_two_eq_zero_or_one x with hx | hx <;>
    rcases Nat.mod_two_eq_zero_or_one y with hy | hy <;>
      rw [hx, hy] at hmod ⊢ <;> omega

/-- Clearing the two low bits: and with `~3` keeps the word aligned down to a
multiple of four. -/
theorem and_compl_mask (x : Nat) (hx : x < 2 ^ 64) :
    x &&& (2 ^ 64 - 4) = 4 * (x / 4) := by
  have e1 : (2 ^ 64 - 4 : Nat) / 2 = 2 ^ 63 - 2 := by norm_num
  have e2 : (2 ^ 64 - 4 : Nat) % 2 = 0 := by norm_num
  have e3 : (2 ^ 63 - 2 : Nat) / 2 = 2 ^ 62 - 1 := by norm_num
  have e4 : (2 ^ 63 - 2 : Nat) % 2 = 0 := by norm_num
  have hinner : x / 2 / 2 &&& 2 ^ 62 - 1 = x / 2 / 2 % 2 ^ 62 :=
    Nat.and_pow_two_sub_one_eq_mod (x / 2 / 2) 62
  have hlt : x / 2 / 2 < 2 ^ 62 := by
    have : (2 : Nat) ^ 64 = 2 * (2 * 2 ^ 62) := by norm_num
    omega
  have hmod : x / 2 / 2 % 2 ^ 62 = x / 2 / 2 := Nat.mod_eq_of_lt hlt
  calc x &&& (2 ^ 64 - 4)
      = 2 * (x / 2 &&& (2 ^ 64 - 4) / 2) + x % 2 * ((2 ^ 64 - 4) % 2) :=
        nat_and_split x (2 ^ 64 - 4)
    _ = 2 * (x / 2 &&& (2 ^ 63 - 2)) := by rw [e1, e2]; ring
    _ = 2 * (2 * (x / 2 / 2 &&& (2 ^ 63 - 2) / 2) + x / 2 % 2 * ((2 ^ 63 - 2) % 2)) := by
        rw [nat_and_split (x / 2) (2 ^ 63 - 2)]
    _ = 4 * (x / 2 / 2 &&& (2 ^ 62 - 1)) := by rw [e3, e4]; ring
    _ = 4 * (x / 4) := by rw [hinner, hmod, Nat.div_div_eq_div_mul]

/-- Clearing the live bit only: and with `~1`. -/
theorem and_compl_live (x : Nat) (hx : x < 2 ^ 64) :
    x &&& (2 ^ 64 - 2) = 2 * (x / 2) := by
  have e1 : (2 ^ 64 - 2 : Nat) / 2 = 2 ^ 63 - 1 := by norm_num
  have e2 : (2 ^ 64 - 2 : Nat) % 2 = 0 := by norm_num
  have hinner : x / 2 &&& 2 ^ 63 - 1 = x / 2 % 2 ^ 63 :=
    Nat.and_pow_two_sub_one_eq_mod (x / 2) 63
  have hlt : x / 2 < 2 ^ 63 := by
    have : (2 : Nat) ^ 64 = 2 * 2 ^ 63 := by norm_num
    omega
  calc x &&& (2 ^ 64 - 2)
      = 2 * (x / 2 &&& (2 ^ 64 - 2) / 2) + x % 2 * ((2 ^ 64 - 2) % 2) :=
        nat_and_split x (2 ^ 64 - 2)
    _ = 2 * (x / 2 &&& (2 ^ 63 - 1)) := by rw [e1, e2]; ring
    _ = 2 * (x / 2) := by rw [hinner, Nat.mod_eq_of_lt hlt]

/-- Clearing the ignore bit only: and with `~2`. -/
theorem and_compl_ignore (x : Nat) (hx : x < 2 ^ 64) :
    x &&& (2 ^ 64 - 3) = 4 * (x / 4) + x % 2 := by
  have e1 : (2 ^ 64 - 3 : Nat) / 2 = 2 ^ 63 - 2 := by norm_num
  have e2 : (2 ^ 64 - 3 : Nat) % 2 = 1 := by norm_num
  have e3 : (2 ^ 63 - 2 : Nat) / 2 = 2 ^ 62 - 1 := by norm_num
  have e4 : (2 ^ 63 - 2 : Nat) % 2 = 0 := by norm_num
  have hinner : x / 2 / 2 &&& 2 ^ 62 - 1 = x / 2 / 2 % 2 ^ 62 :=
    Nat.and_pow_two_sub_one_eq_mod (x / 2 / 2) 62
  have hlt : x / 2 / 2 < 2 ^ 62 := by
    have : (2 : Nat) ^ 64 = 2 * (2 * 2 ^ 62) := by norm_num
    omega
  have hmid : x / 2 &&& (2 ^ 63 - 2) = 2 * (x / 4) := by
    calc x / 2 &&& (2 ^ 63 - 2)
        = 2 * (x / 2 / 2 &&& (2 ^ 63 - 2) / 2) + x / 2 % 2 * ((2 ^ 63 - 2) % 2) :=
          nat_and_split (x / 2) (2 ^ 63 - 2)
      _ = 2 * (x / 2 / 2 &&& (2 ^ 62 - 1)) := by rw [e3, e4]; ring
      _ = 2 * (x / 4) := by
          rw [hinner, Nat.mod_eq_of_lt hlt, Nat.div_div_eq_div_mul]
  have hx2 := Nat.mod_lt x (y := 2) (by omega)
  calc x &&& (2 ^ 64 - 3)
      = 2 * (x / 2 &&& (2 ^ 64 - 3) / 2) + x % 2 * ((2 ^ 64 - 3) % 2) :=
        nat_and_split x (2 ^ 64 - 3)
    _ = 2 * (2 * (x / 4)) + x % 2 := by rw [e1, e2, hmid]; ring
    _ = 4 * (x / 4) + x % 2 := by ring

/-- Setting the low bit of an even number by bitwise or is addition. -/
theorem even_or_one (a : Nat) (h : a % 2 = 0) : a ||| 1 = a + 1 := by
  have h1 := nat_or_split a 1
  norm_num at h1
  omega

/-- Setting bit one of a number whose bit one is clear by bitwise or is
addition of two. -/
theorem bit1_clear_or_two (a : Nat) (h : a / 2 % 2 = 0) : a ||| 2 = a + 2 := by
  have h1 := nat_or_split a 2
  have h2 : a / 2 ||| 1 = a / 2 + 1 := even_or_one (a / 2) h
  norm_num [h2] at h1
  omega

/-- The flag stored in the low bit of `bucket_rep` (heap-profile-table.h). -/
def kLive : Nat := 1

/-- The flag stored in bit one of `bucket_rep` (heap-profile-table.h). -/
def kIgnore : Nat := 2

/-- Combined mask `kMask = kLive | kIgnore` (heap-profile-table.h). -/
def kMask : Nat := kLive ||| kIgnore

/-- One entry of the allocation address map (`HeapProfileTable::AllocValue`):
a bucket pointer with the live and ignore flags packed into its two low bits,
plus the byte size of the allocation. -/
structure AllocValue where
  bucket_rep : Nat
  bytes : Nat
deriving DecidableEq, Repr

namespace AllocValue

/-- Accessor `bucket()`: `bucket_rep & ~uintptr_t(kMask)`. -/
def bucket (v : AllocValue) : Nat := v.bucket_rep &&& uintptrCompl kMask

/-- Setter `set_bucket(b)`: store the pointer value, clearing both flag bits. -/
def set_bucket (v : AllocValue) (b : Nat) : AllocValue := { v with bucket_rep := b }

/-- Accessor `live()`: `bucket_rep & kLive` converted to bool. -/
def live (v : AllocValue) : Bool := decide (v.bucket_rep &&& kLive ≠ 0)

/-- Setter `set_live(l)`: `bucket_rep = (bucket_rep & ~uintptr_t(kLive)) | (l ? kLive : 0)`. -/
def set_live (v : AllocValue) (l : Bool) : AllocValue :=
  { v with bucket_rep := (v.bucket_rep &&& uintptrCompl kLive) ||| (if l then kLive else 0) }

/-- Accessor `ignore()`: `bucket_rep & kIgnore` converted to bool. -/
def ignore (v : AllocValue) : Bool := decide (v.bucket_rep &&& kIgnore ≠ 0)

/-- Setter `set_ignore(r)`: `bucket_rep = (bucket_rep & ~uintptr_t(kIgnore)) | (r ? kIgnore : 0)`. -/
def set_ignore (v : AllocValue) (r : Bool) : AllocValue :=
  { v with bucket_rep := (v.bucket_rep &&& uintptrCompl kIgnore) ||| (if r then kIgnore else 0) }

/-- Well-formedness: the packed word fits in `uintptr_t`. -/
def WF (v : AllocValue) : Prop := v.bucket_rep < 2 ^ 64

end AllocValue

theorem compl_kMask_eq : uintptrCompl kMask = 2 ^ 64 - 4 := by
  have h : kMask = 3 := by decide
  norm_num [uintptrCompl, h]

theorem compl_kLive_eq : uintptrCompl kLive = 2 ^ 64 - 2 := by
  norm_num [uintptrCompl, kLive]

theorem compl_kIgnore_eq : uintptrCompl kIgnore = 2 ^ 64 - 3 := by
  norm_num [uintptrCompl, kIgnore]

namespace AllocValue

theorem live_iff (v : AllocValue) : v.live = true ↔ v.bucket_rep % 2 = 1 := by
  simp only [live, kLive, Nat.and_one_is_mod, decide_eq_true_eq]
  omega

theorem ignore_iff (v : AllocValue) : v.ignore = true ↔ v.bucket_rep / 2 % 2 = 1 := by
  have h : v.bucket_rep &&& 2 = 2 * (v.bucket_rep / 2 % 2) := by
    have := nat_and_split v.bucket_rep 2
    have h1 : v.bucket_rep / 2 &&& (2 : Nat) / 2 = v.bucket_rep / 2 % 2 := by
      norm_num [Nat.and_one_is_mod]
    omega
  simp only [ignore, kIgnore, h, decide_eq_true_eq]
  omega

theorem bucket_eq (v : AllocValue) (h : v.WF) : v.bucket = 4 * (v.bucket_rep / 4) := by
  rw [bucket, compl_kMask_eq, and_compl_mask _ h]

theorem set_live_rep (v : AllocValue) (l : Bool) (h : v.WF) :
    (v.set_live l).bucket_rep = 2 * (v.bucket_rep / 2) + (if l then 1 else 0) := by
  rw [set_live]
  simp only [compl_kLive_eq]
  rw [and_compl_live _ h]
  cases l with
  | false => simp [kLive]
  | true =>
    simp only [if_pos, kLive]
    exact even_or_one _ (by omega)

theorem set_ignore_rep (v : AllocValue) (r : Bool) (h : v.WF) :
    (v.set_ignore r).bucket_rep
      = 4 * (v.bucket_rep / 4) + v.bucket_rep % 2 + (if r then 2 else 0) := by
  rw [set_ignore]
  simp only [compl_kIgnore_eq]
  rw [and_compl_ignore _ h]
  cases r with
  | false => simp [kIgnore]
  | true =>
    simp only [if_pos, kIgnore]
    refine bit1_clear_or_two _ ?h
    omega

theorem boolOfIff {a b : Bool} (h : (a = true) ↔ (b = true)) : a = b := by
  cases a <;> cases b <;> simp_all

theorem set_live_WF (v : AllocValue) (l : Bool) (h : v.WF) : (v.set_live l).WF := by
  have := set_live_rep v l h
  have hb : v.bucket_rep < 2 ^ 64 := h
  unfold WF at hb ⊢
  cases l <;> simp_all <;> omega

theorem set_ignore_WF (v : AllocValue) (r : Bool) (h : v.WF) : (v.set_ignore r).WF := by
  have := set_ignore_rep v r h
  have hb : v.bucket_rep < 2 ^ 64 := h
  unfold WF at hb ⊢
  cases r <;> simp_all <;> omega

theorem set_live_live (v : AllocValue) (l : Bool) (h : v.WF) : (v.set_live l).live = l := by
  refine boolOfIff ?h
  rw [live_iff, set_live_rep v l h]
  cases l <;> simp <;> omega

theorem set_live_ignore (v : AllocValue) (l : Bool) (h : v.WF) :
    (v.set_live l).ignore = v.ignore := by
  refine boolOfIff ?h
  rw [ignore_iff, ignore_iff, set_live_rep v l h]
  cases l <;> simp <;> omega

theorem set_live_bucket (v : AllocValue) (l : Bool) (h : v.WF) :
    (v.set_live l).bucket = v.bucket := by
  rw [bucket_eq _ (set_live_WF v l h), bucket_eq _ h, set_live_rep v l h]
  cases l <;> simp <;> omega

theorem set_live_bytes (v : AllocValue) (l : Bool) : (v.set_live l).bytes = v.bytes := rfl

theorem set_ignore_live (v : AllocValue) (r : Bool) (h : v.WF) :
    (v.set_ignore r).live = v.live := by
  refine boolOfIff ?h
  rw [live_iff, live_iff, set_ignore_rep v r h]
  cases r <;> simp <;> omega

theorem set_ignore_ignore (v : AllocValue) (r : Bool) (h : v.WF) :
    (v.set_ignore r).ignore = r := by
  refine boolOfIff ?h
  rw [ignore_iff, set_ignore_rep v r h]
  cases r <;> simp <;> omega

theorem set_ignore_bucket (v : AllocValue) (r : Bool) (h : v.WF) :
    (v.set_ignore r).bucket = v.bucket := by
  rw [bucket_eq _ (set_ignore_WF v r h), bucket_eq _ h, set_ignore_rep v r h]
  cases r <;> simp <;> omega

theorem set_ignore_bytes (v : AllocValue) (r : Bool) : (v.set_ignore r).bytes = v.bytes := rfl

theorem set_bucket_WF (v : AllocValue) (b : Nat) (hlt : b < 2 ^ 64) : (v.set_bucket b).WF := hlt

theorem set_bucket_bucket (v : AllocValue) (b : Nat) (hal : 4 ∣ b) (hlt : b < 2 ^ 64) :
    (v.set_bucket b).bucket = b := by
  rw [bucket_eq _ (set_bucket_WF v b hlt)]
  show 4 * (b / 4) = b
  omega

theorem set_bucket_live (v : AllocValue) (b : Nat) (hal : 4 ∣ b) :
    (v.set_bucket b).live = false := by
  refine boolOfIff ?h
  rw [live_iff]
  simp only [set_bucket, Bool.false_eq_true, iff_false]
  omega

theorem set_bucket_ignore (v : AllocValue) (b : Nat) (hal : 4 ∣ b) :
    (v.set_bucket b).ignore = false := by
  refine boolOfIff ?h
  rw [ignore_iff]
  simp only [set_bucket, Bool.false_eq_true, iff_false]
  omega

end AllocValue

/-- A call to one of the two flag setters of `AllocValue`. -/
inductive FlagOp where
  | setLive (l : Bool)
  | setIgnore (r : Bool)
deriving DecidableEq, Repr

/-- Run one flag setter. -/
def applyFlagOp (v : AllocValue) : FlagOp → AllocValue
  | .setLive l => v.set_live l
  | .setIgnore r => v.set_ignore r

/-- Run a sequence of flag setters, first element first. -/
def applyFlagOps (v : AllocValue) (ops : List FlagOp) : AllocValue :=
  ops.foldl applyFlagOp v

/-- The value the live flag should have after running `ops` over initial value `d`. -/
def liveAfter (d : Bool) : List FlagOp → Bool
  | [] => d
  | .setLive l :: rest => liveAfter l rest
  | .setIgnore _ :: rest => liveAfter d rest

/-- The value the ignore flag should have after running `ops` over initial value `d`. -/
def ignoreAfter (d : Bool) : List FlagOp → Bool
  | [] => d
  | .setLive _ :: rest => ignoreAfter d rest
  | .setIgnore r :: rest => ignoreAfter r rest

theorem applyFlagOps_spec (ops : List FlagOp) (v : AllocValue) (h : v.WF) :
    (applyFlagOps v ops).WF
      ∧ (applyFlagOps v ops).bucket = v.bucket
      ∧ (applyFlagOps v ops).live = liveAfter v.live ops
      ∧ (applyFlagOps v ops).ignore = ignoreAfter v.ignore ops
      ∧ (applyFlagOps v ops).bytes = v.bytes := by
  induction ops generalizing v with
  | nil => exact ⟨h, rfl, rfl, rfl, rfl⟩
  | cons op rest ih =>
    cases op with
    | setLive l =>
      have h1 := ih (v.set_live l) (AllocValue.set_live_WF v l h)
      simp only [applyFlagOps, List.foldl_cons, applyFlagOp] at h1 ⊢
      rw [h1.2.1, h1.2.2.1, h1.2.2.2.1, AllocValue.set_live_bucket v l h,
        AllocValue.set_live_live v l h, AllocValue.set_live_ignore v l h]
      exact ⟨h1.1, rfl, rfl, rfl, h1.2.2.2.2⟩
    | setIgnore r =>
      have h1 := ih (v.set_ignore r) (AllocValue.set_ignore_WF v r h)
      simp only [applyFlagOps, List.foldl_cons, applyFlagOp] at h1 ⊢
      rw [h1.2.1, h1.2.2.1, h1.2.2.2.1, AllocValue.set_ignore_bucket v r h,
        AllocValue.set_ignore_live v r h, AllocValue.set_ignore_ignore v r h]
      exact ⟨h1.1, rfl, rfl, rfl, h1.2.2.2.2⟩

/-- The address map of the table (`AddressMap<AllocValue>`): association list of
address to record, unique keys by contract. -/
def AllocationMap : Type := List (Nat × AllocValue)

/-- Point lookup in the address map (`AddressMap::Find`). -/
def mapFind : List (Nat × AllocValue) → Nat → Option AllocValue
  | [], _ => none
  | e :: rest, p => if e.1 = p then some e.2 else mapFind rest p

/-- In-place mutation of the record stored at a present key
(`AddressMap::FindMutable` followed by a write through the pointer). -/
def mapUpdate : List (Nat × AllocValue) → Nat → AllocValue → List (Nat × AllocValue)
  | [], _, _ => []
  | e :: rest, p, w => if e.1 = p then (p, w) :: rest else e :: mapUpdate rest p w

theorem mapFind_mapUpdate_self (m : List (Nat × AllocValue)) (p : Nat) (w : AllocValue)
    (h : (mapFind m p).isSome) : mapFind (mapUpdate m p w) p = some w := by
  induction m with
  | nil => simp [mapFind] at h
  | cons e rest ih =>
    by_cases he : e.1 = p
    · simp [mapFind, mapUpdate, he]
    · simp only [mapFind, mapUpdate, he, if_false, if_neg he] at h ⊢
      exact ih h

/-- Modelled from the spec: `HeapProfileTable::MarkAsLive` (implementation file
not in the excerpt; the header documents it as: if `ptr` points to a recorded
allocation and it is not marked as live, mark it as live and return true, else
return false). -/
def MarkAsLive (m : List (Nat × AllocValue)) (p : Nat) : Bool × List (Nat × AllocValue) :=
  match mapFind m p with
  | some v => if v.live then (false, m) else (true, mapUpdate m p (v.set_live true))
  | none => (false, m)

/-- The statistics point of a snapshot total (the `allocs` and `alloc_size`
fields of `HeapProfileStats` that the excerpted code reads and writes). -/
structure Stats where
  allocs : Nat
  alloc_size : Nat
deriving DecidableEq, Repr

/-- Snapshot state (`HeapProfileTable::Snapshot`): an aggregate total plus a private
address-to-record map sharing the parent's buckets. -/
structure Snapshot where
  total : Stats
  map : List (Nat × AllocValue)
deriving DecidableEq, Repr

/-- A freshly constructed snapshot: the constructor zeroes `total_` and starts
with an empty map. -/
def emptySnapshot : Snapshot := ⟨⟨0, 0⟩, []⟩

/-- Population callback `Snapshot::Add`: insert the record into the private map, bump the total
allocation count, and add the record's bytes to the total size. -/
def Snapshot.Add (s : Snapshot) (ptr : Nat) (v : AllocValue) : Snapshot :=
  { map := (ptr, v) :: s.map
    total := { allocs := s.total.allocs + 1, alloc_size := s.total.alloc_size + v.bytes } }

/-- Emptiness test `Snapshot::Empty`: both totals are zero. -/
def Snapshot.EmptyQ (s : Snapshot) : Bool :=
  decide (s.total.allocs = 0) && decide (s.total.alloc_size = 0)

/-- Run a sequence of `Snapshot::Add` calls, first entry first. -/
def addEntries (s : Snapshot) (l : List (Nat × AllocValue)) : Snapshot :=
  l.foldl (fun s e => s.Add e.1 e.2) s

theorem addEntries_total (l : List (Nat × AllocValue)) (s : Snapshot) :
    (addEntries s l).total.allocs = s.total.allocs + l.length
      ∧ (addEntries s l).total.alloc_size
          = s.total.alloc_size + (l.map (fun e => e.2.bytes)).sum := by
  induction l generalizing s with
  | nil => simp [addEntries]
  | cons e rest ih =>
    have h := ih (s.Add e.1 e.2)
    simp only [addEntries, List.foldl_cons] at h ⊢
    rw [h.1, h.2]
    simp only [Snapshot.Add, List.map_cons, List.sum_cons, List.length_cons]
    constructor <;> omega

/-- Membership of an address in a possibly-null base snapshot. -/
def inBase (base : Option Snapshot) (p : Nat) : Bool :=
  match base with
  | none => false
  | some b => (mapFind b.map p).isSome

/-- Modelled from the spec: `HeapProfileTable::NonLiveSnapshot(base)`
(implementation file not in the excerpt; the header and spec document it as:
copy into a new snapshot every record that is not ignored, not live, and whose
address is not present in `base` when `base` is supplied; as a side effect
clear the live flag on every record of the table). The copied records are
handed to `Snapshot::Add`. -/
def NonLiveSnapshot (m : List (Nat × AllocValue)) (base : Option Snapshot) :
    Snapshot × List (Nat × AllocValue) :=
  (m.foldl
      (fun s e => if !e.2.ignore && !e.2.live && !inBase base e.1 then s.Add e.1 e.2 else s)
      emptySnapshot,
   m.map (fun e => (e.1, e.2.set_live false)))

theorem foldl_add_filter (base : Option Snapshot) (l : List (Nat × AllocValue)) (s : Snapshot) :
    (l.foldl
        (fun s e => if !e.2.ignore && !e.2.live && !inBase base e.1 then s.Add e.1 e.2 else s)
        s).map
      = (l.filter (fun e => !e.2.ignore && !e.2.live && !inBase base e.1)).reverse ++ s.map := by
  induction l generalizing s with
  | nil => simp
  | cons e rest ih =>
    by_cases hp : (!e.2.ignore && !e.2.live && !inBase base e.1) = true
    · simp only [List.foldl_cons, List.filter_cons, hp, if_pos, List.reverse_cons]
      rw [ih (s.Add e.1 e.2)]
      simp [Snapshot.Add]
    · simp only [List.foldl_cons, List.filter_cons, hp, if_neg, Bool.false_eq_true,
        if_false]
      rw [ih s]

theorem set_live_true_live (v : AllocValue) : (v.set_live true).live = true := by
  rw [AllocValue.live_iff]
  have h := Nat.or_mod_two_eq_one
    (a := v.bucket_rep &&& uintptrCompl kLive) (b := 1)
  show ((v.bucket_rep &&& uintptrCompl kLive) ||| 1) % 2 = 1
  omega

theorem set_live_false_live (v : AllocValue) : (v.set_live false).live = false := by
  refine AllocValue.boolOfIff ?h
  rw [AllocValue.live_iff]
  have h := Nat.and_mod_two_eq_one (a := v.bucket_rep) (b := uintptrCompl kLive)
  have he : uintptrCompl kLive % 2 = 0 := by rw [compl_kLive_eq]; norm_num
  show ((v.bucket_rep &&& uintptrCompl kLive) ||| 0) % 2 = 1 ↔ false = true
  simp only [Nat.or_zero, Bool.false_eq_true, iff_false]
  omega

/-- One stack-trace bucket (`HeapProfileBucket`): the recorded depth and frame
sequence, plus the cumulative statistics. -/
structure Bucket where
  depth : Nat
  stack : List Nat
  allocs : Nat
  alloc_size : Nat
  frees : Nat
  free_size : Nat
deriving DecidableEq, Repr

/-- The bucket table of one `HeapProfileTable`; a bucket object is identified
by its position in the store. -/
def BucketStore : Type := List Bucket

/-- Position of the first bucket whose content `(depth, frame values)` equals
the query, if any. -/
def findBucketIdx : List Bucket → Nat → List Nat → Option Nat
  | [], _, _ => none
  | b :: rest, d, k =>
    if b.depth = d ∧ b.stack = k then some 0
    else
      match findBucketIdx rest d k with
      | some j => some (j + 1)
      | none => none

/-- Modelled from the spec: `HeapProfileTable::GetBucket(depth, key)`
(implementation file not in the excerpt; the spec documents it as: search by
content equality over `(depth, frame values)`; return the existing bucket on a
match, else allocate a new one with this stack's exact frame sequence copied
in, insert it, and return it). Returns the bucket's identity (its position)
and the resulting store. -/
def GetBucket (store : List Bucket) (d : Nat) (k : List Nat) : Nat × List Bucket :=
  match findBucketIdx store d k with
  | some i => (i, store)
  | none => (store.length, store ++ [⟨d, k, 0, 0, 0, 0⟩])

theorem findBucketIdx_sound (store : List Bucket) (d : Nat) (k : List Nat) :
    ∀ i, findBucketIdx store d k = some i →
      ∃ b, store[i]? = some b ∧ b.depth = d ∧ b.stack = k := by
  induction store with
  | nil => intro i h; simp [findBucketIdx] at h
  | cons b rest ih =>
    intro i h
    unfold findBucketIdx at h
    by_cases hb : b.depth = d ∧ b.stack = k
    · rw [if_pos hb] at h
      cases h
      exact ⟨b, by simp, hb⟩
    · rw [if_neg hb] at h
      cases hj : findBucketIdx rest d k with
      | none => rw [hj] at h; cases h
      | some j =>
        rw [hj] at h
        cases h
        obtain ⟨c, hc, hcd, hck⟩ := ih j hj
        exact ⟨c, by simpa using hc, hcd, hck⟩

theorem findBucketIdx_append_single (store : List Bucket) (d : Nat) (k : List Nat)
    (h : findBucketIdx store d k = none) (b : Bucket) (hb : b.depth = d ∧ b.stack = k) :
    findBucketIdx (store ++ [b]) d k = some store.length := by
  induction store with
  | nil =>
    simp only [List.nil_append, List.length_nil]
    unfold findBucketIdx
    rw [if_pos hb]
  | cons c rest ih =>
    unfold findBucketIdx at h
    by_cases hc : c.depth = d ∧ c.stack = k
    · rw [if_pos hc] at h; cases h
    · rw [if_neg hc] at h
      simp only [List.cons_append, List.length_cons]
      unfold findBucketIdx
      rw [if_neg hc]
      cases hj : findBucketIdx rest d k with
      | some j => rw [hj] at h; cases h
      | none => rw [ih hj]

theorem GetBucket_content (store : List Bucket) (d : Nat) (k : List Nat) :
    ∃ b, (GetBucket store d k).2[(GetBucket store d k).1]? = some b
      ∧ b.depth = d ∧ b.stack = k := by
  unfold GetBucket
  cases hf : findBucketIdx store d k with
  | some i =>
    simpa using findBucketIdx_sound store d k i hf
  | none =>
    refine ⟨⟨d, k, 0, 0, 0, 0⟩, ?h, rfl, rfl⟩
    simpa using List.getElem?_concat_length store ⟨d, k, 0, 0, 0, 0⟩

theorem GetBucket_extends (store : List Bucket) (d : Nat) (k : List Nat) (j : Nat) (b : Bucket)
    (h : store[j]? = some b) : (GetBucket store d k).2[j]? = some b := by
  unfold GetBucket
  cases hf : findBucketIdx store d k with
  | some i => simpa using h
  | none =>
    have hj : j < store.length := by
      by_contra hge
      rw [List.getElem?_eq_none (by omega)] at h
      cases h
    simpa using (List.getElem?_append_left hj).trans h

theorem GetBucket_idem (store : List Bucket) (d : Nat) (k : List Nat) :
    GetBucket (GetBucket store d k).2 d k = GetBucket store d k := by
  unfold GetBucket
  cases hf : findBucketIdx store d k with
  | some i => simp [GetBucket, hf]
  | none =>
    have h2 := findBucketIdx_append_single store d k hf ⟨d, k, 0, 0, 0, 0⟩ ⟨rfl, rfl⟩
    simp [GetBucket, h2]

/-- The per-sample filter options of `ProfilerOptions`: the optional predicate
`filter_in_thread` (a C function returning nonzero to include the sample) and
its stored argument. -/
structure ProfilerOptions where
  filter_in_thread : Option (Nat → Int)
  filter_in_thread_arg : Nat

/-- The external collector (`ProfileData`), modelled from the spec with the
state the excerpted control code reads: the enabled flag, the output name,
the sampling frequency, the start time and the samples gathered so far. -/
structure Collector where
  enabled : Bool
  fname : String
  frequency : Nat
  start_time : Nat
  samples_gathered : Nat

/-- Modelled from the spec: `ProfileData::Start` fails when already enabled,
else begins collecting to `fname` at the given frequency. -/
def Collector.Start (c : Collector) (fname : String) (freq : Nat) : Bool × Collector :=
  if c.enabled then (false, c)
  else (true, { enabled := true, fname := fname, frequency := freq,
                start_time := c.start_time, samples_gathered := 0 })

/-- Modelled from the spec: `ProfileData::Stop` stops collecting and flushes
the gathered data to disk. -/
def Collector.Stop (c : Collector) : Collector := { c with enabled := false }

/-- Modelled from the spec: `ProfileData::FlushTable` writes the gathered data
out while leaving collection enabled. -/
def Collector.FlushTable (c : Collector) : Collector := c

/-- The `CpuProfiler` singleton state touched by the excerpted control code:
the collector, the filter predicate and its argument, and whether the SIGPROF
callback token is currently registered (`prof_handler_token_ != nullptr`). -/
structure CpuProfiler where
  collector : Collector
  filter : Option (Nat → Int)
  filter_arg : Nat
  handler_registered : Bool

/-- Externally visible side effects of one control operation, in order. -/
inductive PEvent where
  | enableHandler
  | disableHandler
  | collectorStart
  | collectorStop
  | collectorFlush
deriving DecidableEq, Repr

/-- Control operation `CpuProfiler::Start(fname, options)` from profiler.cc: under the lock,
fail if the collector is already enabled; else start the collector at the
frequency obtained from the profile handler, record the optional filter, and
install the SIGPROF callback. The returned list is the sequence of performed
side effects. -/
def CpuProfiler.Start (p : CpuProfiler) (fname : String) (options : Option ProfilerOptions)
    (freq : Nat) : Bool × CpuProfiler × List PEvent :=
  if p.collector.enabled then (false, p, [])
  else
    let r := Collector.Start p.collector fname freq
    if !r.1 then (false, { p with collector := r.2 }, [.collectorStart])
    else
      let fp : Option (Nat → Int) × Nat :=
        match options with
        | some o =>
          match o.filter_in_thread with
          | some f => (some f, o.filter_in_thread_arg)
          | none => (none, p.filter_arg)
        | none => (none, p.filter_arg)
      (true,
       { collector := r.2, filter := fp.1, filter_arg := fp.2, handler_registered := true },
       [.collectorStart, .enableHandler])

/-- Control operation `CpuProfiler::Stop()` from profiler.cc: under the lock, return at once if
the collector is not enabled; else unregister the SIGPROF callback and stop
the collector. -/
def CpuProfiler.Stop (p : CpuProfiler) : CpuProfiler × List PEvent :=
  if !p.collector.enabled then (p, [])
  else
    ({ p with handler_registered := false, collector := Collector.Stop p.collector },
     [.disableHandler, .collectorStop])

/-- Control operation `CpuProfiler::FlushTable()` from profiler.cc: under the lock, return at
once if the collector is not enabled; else unregister the callback, flush the
collector, and reinstall the callback. -/
def CpuProfiler.FlushTable (p : CpuProfiler) : CpuProfiler × List PEvent :=
  if !p.collector.enabled then (p, [])
  else
    ({ p with collector := Collector.FlushTable p.collector },
     [.disableHandler, .collectorFlush, .enableHandler])

/-- Signal handler `CpuProfiler::prof_handler` from profiler.cc, as a function from the
interrupt context to the `Add` call it makes, if any: `pc` is the program
counter extracted from the signal context (`stack[0]`), `frames` are the
frames unwound by `GetStackTraceWithContext` into `stack + 1` (so `depth`
is `frames.length`). Returns `some (depth, used_stack)` when the collector's
`Add(depth, used_stack)` is invoked, `none` when it is not.
`handlerTrace` is the duplicate-top-frame dedup step of the handler. -/
def handlerTrace (pc : Nat) (frames : List Nat) : Nat × List Nat :=
  let depth := frames.length
  if 0 < depth ∧ frames.head? = some pc then (depth, frames)
  else (depth + 1, pc :: frames)

/-- Dispatch of `prof_handler` on `filter_ == nullptr || (*filter_)(filter_arg_)`. -/
def prof_handler (filter : Option (Nat → Int)) (filter_arg : Nat)
    (pc : Nat) (frames : List Nat) : Option (Nat × List Nat) :=
  match filter with
  | none => some (handlerTrace pc frames)
  | some f => if f filter_arg ≠ 0 then some (handlerTrace pc frames) else none

/-- Model of the C library function `strtol(s, nullptr, 10)` as used by the
constructor: skip leading whitespace, consume an optional sign and the
longest digit prefix, and return the signed value (overflow clamping is not
modelled; the constructor only compares the result against 1 and 64). -/
def parseDigits : List Char → Nat → Nat
  | [], acc => acc
  | c :: rest, acc =>
    if c.isDigit then parseDigits rest (10 * acc + (c.toNat - 48)) else acc

def strtol10 (s : String) : Int :=
  match s.toList.dropWhile (fun c => c.isWhitespace) with
  | '-' :: rest => - (parseDigits rest 0 : Int)
  | '+' :: rest => (parseDigits rest 0 : Int)
  | l => (parseDigits l 0 : Int)

/-- The environment the `CpuProfiler` constructor consults: `CPUPROFILE`
(already resolved through `GetUniquePathFromEnv` when used for auto-start),
whether the real and effective uid match, `CPUPROFILESIGNAL`, and whether the
chosen signal already has a handler installed (`signal()` returned nonzero). -/
structure CtorEnv where
  cpuprofile : Option String
  uid_matches : Bool
  cpuprofilesignal : Option String
  signal_taken : Bool
  unique_path : Option String

/-- What the `CpuProfiler` constructor does: return quietly, abort with a
fatal diagnostic, install the toggle signal handler, or auto-start sampling
to the resolved file name. -/
inductive CtorOutcome where
  | quietReturn
  | fatalDiag (msg : String)
  | toggleInstalled (sig : Int)
  | autoStart (fname : String)
deriving DecidableEq, Repr

/-- Constructor `CpuProfiler::CpuProfiler()` from profiler.cc: no-op without `CPUPROFILE`
or under setuid; with `CPUPROFILESIGNAL` set, parse it with `strtol` and
either install the toggle handler (signal free, number in 1..64), abort
because the signal is taken, or abort because the number is out of range;
without it, resolve the unique path and start sampling (`autoStart` stands
for the `Start` call; its own failure path aborts). -/
def cpuProfilerCtor (env : CtorEnv) : CtorOutcome :=
  match env.cpuprofile with
  | none => .quietReturn
  | some _ =>
    if !env.uid_matches then .quietReturn
    else
      match env.cpuprofilesignal with
      | some sstr =>
        let n := strtol10 sstr
        if 1 ≤ n ∧ n ≤ 64 then
          if env.signal_taken then .fatalDiag "Signal already in use"
          else .toggleInstalled n
        else .fatalDiag "Signal number is invalid"
      | none =>
        match env.unique_path with
        | none => .quietReturn
        | some fname => .autoStart fname

/-- The NUL character written as string terminator. -/
def NUL : Char := Char.ofNat 0

/-- The `profile_name` part of `CpuProfiler::GetCurrentState` from
profiler.cc, over a byte-list model of the fixed `char` array
`state->profile_name`: `memcpy(state->profile_name, profile_name.data(),
std::min<size_t>(kBufSize, profile_name.size() + 1))` (the source bytes being
the collector's name followed by its NUL), then
`state->profile_name[kBufSize - 1] = 0`, then, when
`profile_name.size() + 1 + sizeof(void*) <= kBufSize`, the version-specific
append of the 8 pointer bytes at offset `profile_name.size() + 1`. -/
def writeName (kBufSize : Nat) (buf name : List Char) : List Char :=
  ((name ++ [NUL]).take (min kBufSize (name.length + 1))
      ++ buf.drop (min kBufSize (name.length + 1))).set (kBufSize - 1) NUL

def GetCurrentStateName (kBufSize : Nat) (buf : List Char) (name : List Char)
    (ptrBytes : List Char) : List Char :=
  if name.length + 1 + 8 ≤ kBufSize then
    (writeName kBufSize buf name).take (name.length + 1) ++ ptrBytes
      ++ (writeName kBufSize buf name).drop (name.length + 1 + 8)
  else writeName kBufSize buf name

/-- C7: for every snapshot built by a sequence of `Snapshot::Add` calls from
the freshly constructed (zeroed) snapshot, the total allocation count equals
the number of entries added and the total allocation bytes equal the sum of
the byte sizes of the entries added. -/
theorem claim_C7 (l : List (Nat × AllocValue)) :
    (addEntries emptySnapshot l).total.allocs = l.length
    ∧ (addEntries emptySnapshot l).total.alloc_size = (l.map (fun e => e.2.bytes)).sum := by
  have h := addEntries_total l emptySnapshot
  simpa [emptySnapshot] using h

/-- C8: for an `AllocValue` given a 4-byte-aligned bucket pointer by
`set_bucket`, `bucket()` returns that pointer with both flags false, any
sequence of `set_live` and `set_ignore` calls leaves `bucket()` unchanged,
and each flag reads back the last value written to it, independently of the
other. -/
theorem claim_C8 (b : Nat) (hal : 4 ∣ b) (hlt : b < 2 ^ 64) (v : AllocValue)
    (ops : List FlagOp) :
    ((v.set_bucket b).bucket = b
      ∧ (v.set_bucket b).live = false
      ∧ (v.set_bucket b).ignore = false)
    ∧ (applyFlagOps (v.set_bucket b) ops).bucket = b
    ∧ (applyFlagOps (v.set_bucket b) ops).live = liveAfter false ops
    ∧ (applyFlagOps (v.set_bucket b) ops).ignore = ignoreAfter false ops := by
  have hwf : (v.set_bucket b).WF := AllocValue.set_bucket_WF v b hlt
  have h := applyFlagOps_spec ops (v.set_bucket b) hwf
  have h1 := AllocValue.set_bucket_bucket v b hal hlt
  have h2 := AllocValue.set_bucket_live v b hal
  have h3 := AllocValue.set_bucket_ignore v b hal
  refine ⟨⟨h1, h2, h3⟩, ?g1, ?g2, ?g3⟩
  · rw [h.2.1, h1]
  · rw [h.2.2.1, h2]
  · rw [h.2.2.2.1, h3]

theorem claim_C8_witness :
    (applyFlagOps ((AllocValue.mk 0 16).set_bucket 1024)
        [FlagOp.setLive true, FlagOp.setIgnore true, FlagOp.setLive false]).bucket = 1024
    ∧ (applyFlagOps ((AllocValue.mk 0 16).set_bucket 1024)
        [FlagOp.setLive true, FlagOp.setIgnore true, FlagOp.setLive false]).live = false
    ∧ (applyFlagOps ((AllocValue.mk 0 16).set_bucket 1024)
        [FlagOp.setLive true, FlagOp.setIgnore true, FlagOp.setLive false]).ignore = true := by
  have h := claim_C8 1024 (by norm_num) (by norm_num) (AllocValue.mk 0 16)
    [FlagOp.setLive true, FlagOp.setIgnore true, FlagOp.setLive false]
  exact ⟨h.2.1, h.2.2.1.trans (by decide), h.2.2.2.trans (by decide)⟩

/-- C9: `MarkAsLive` returns true and sets the live flag when the record
exists and is not yet live; it returns false with no state change when the
record is already live or the address is untracked; a second consecutive call
on the same address returns false. -/
theorem claim_C9 (m : List (Nat × AllocValue)) (p : Nat) :
    (∀ v, mapFind m p = some v → v.live = false →
        (MarkAsLive m p).1 = true
        ∧ mapFind (MarkAsLive m p).2 p = some (v.set_live true)
        ∧ (v.set_live true).live = true)
    ∧ (∀ v, mapFind m p = some v → v.live = true → MarkAsLive m p = (false, m))
    ∧ (mapFind m p = none → MarkAsLive m p = (false, m))
    ∧ ((MarkAsLive m p).1 = true → (MarkAsLive (MarkAsLive m p).2 p).1 = false) := by
  refine ⟨?pa, ?pb, ?pc, ?pd⟩
  · intro v hf hl
    have hs : MarkAsLive m p = (true, mapUpdate m p (v.set_live true)) := by
      unfold MarkAsLive
      rw [hf]
      simp [hl]
    rw [hs]
    exact ⟨rfl, mapFind_mapUpdate_self m p _ (by rw [hf]; rfl), set_live_true_live v⟩
  · intro v hf hl
    unfold MarkAsLive
    rw [hf]
    simp [hl]
  · intro hf
    unfold MarkAsLive
    rw [hf]
  · intro h1
    cases hf : mapFind m p with
    | none =>
      have hs : MarkAsLive m p = (false, m) := by unfold MarkAsLive; rw [hf]
      rw [hs] at h1
      simp at h1
    | some v =>
      by_cases hl : v.live = true
      · have hs : MarkAsLive m p = (false, m) := by
          unfold MarkAsLive; rw [hf]; simp [hl]
        rw [hs] at h1
        simp at h1
      · have hl2 : v.live = false := by
          cases h : v.live
          · rfl
          · exact absurd h hl
        have hs : MarkAsLive m p = (true, mapUpdate m p (v.set_live true)) := by
          unfold MarkAsLive
          rw [hf]
          simp [hl2]
        set m2 := (MarkAsLive m p).2 with hm2
        have hupd : mapFind m2 p = some (v.set_live true) := by
          rw [hm2, hs]
          exact mapFind_mapUpdate_self m p _ (by rw [hf]; rfl)
        unfold MarkAsLive
        rw [hupd]
        simp [set_live_true_live v]

def mapC9 : List (Nat × AllocValue) := [(4096, AllocValue.mk 64 16)]

theorem claim_C9_witness :
    (MarkAsLive mapC9 4096).1 = true
    ∧ (MarkAsLive (MarkAsLive mapC9 4096).2 4096).1 = false := by
  have h := claim_C9 mapC9 4096
  have h1 := (h.1 (AllocValue.mk 64 16) (by decide) (by decide)).1
  exact ⟨h1, h.2.2.2 h1⟩

/-- C1: the snapshot returned by `NonLiveSnapshot(base)` contains exactly the
tracked records that are not ignored, not live, and whose address is not
present in `base`; afterwards every record remaining in the parent table has
live = false. -/
theorem claim_C1 (m : List (Nat × AllocValue)) (base : Option Snapshot) :
    (∀ p v, (p, v) ∈ (NonLiveSnapshot m base).1.map ↔
        ((p, v) ∈ m ∧ v.ignore = false ∧ v.live = false ∧ inBase base p = false))
    ∧ ∀ e, e ∈ (NonLiveSnapshot m base).2 → e.2.live = false := by
  constructor
  · intro p v
    show (p, v) ∈ (m.foldl
        (fun s e => if !e.2.ignore && !e.2.live && !inBase base e.1 then s.Add e.1 e.2 else s)
        emptySnapshot).map ↔ _
    rw [foldl_add_filter base m emptySnapshot]
    simp only [emptySnapshot, List.append_nil, List.mem_reverse, List.mem_filter]
    simp [Bool.and_eq_true, Bool.not_eq_true', and_assoc]
  · intro e he
    have he2 : e ∈ m.map (fun e => (e.1, e.2.set_live false)) := he
    simp only [List.mem_map] at he2
    obtain ⟨a, ha, rfl⟩ := he2
    exact set_live_false_live a.2

/-- C2: within one table, two stacks with equal depth and equal frame values
resolve to the same bucket (and the matching lookup allocates nothing), while
stacks differing in depth or in any frame value resolve to distinct buckets;
a query already present in the store leaves the store unchanged. -/
theorem claim_C2 (store : List Bucket) (d1 : Nat) (k1 : List Nat) (d2 : Nat) (k2 : List Nat) :
    ((d1 = d2 ∧ k1 = k2) →
        GetBucket (GetBucket store d1 k1).2 d2 k2 = GetBucket store d1 k1)
    ∧ ((d1 ≠ d2 ∨ k1 ≠ k2) →
        (GetBucket (GetBucket store d1 k1).2 d2 k2).1 ≠ (GetBucket store d1 k1).1)
    ∧ (∀ i, findBucketIdx store d1 k1 = some i → (GetBucket store d1 k1).2 = store) := by
  refine ⟨?pa, ?pb, ?pc⟩
  · rintro ⟨rfl, rfl⟩
    exact GetBucket_idem store d1 k1
  · intro hne heq
    obtain ⟨b1, hb1, hd1, hk1⟩ := GetBucket_content store d1 k1
    obtain ⟨b2, hb2, hd2, hk2⟩ :=
      GetBucket_content (GetBucket store d1 k1).2 d2 k2
    have hb1ext : (GetBucket (GetBucket store d1 k1).2 d2 k2).2[(GetBucket store d1 k1).1]?
        = some b1 :=
      GetBucket_extends (GetBucket store d1 k1).2 d2 k2 (GetBucket store d1 k1).1 b1 hb1
    rw [heq, hb1ext] at hb2
    obtain rfl : b1 = b2 := Option.some.inj hb2
    rcases hne with hne | hne
    · exact hne (hd1.symm.trans hd2)
    · exact hne (hk1.symm.trans hk2)
  · intro i h
    unfold GetBucket
    rw [h]

theorem claim_C2_witness :
    (GetBucket (GetBucket [] 2 [10, 20]).2 2 [10, 30]).1 ≠ (GetBucket [] 2 [10, 20]).1 := by
  have h := claim_C2 [] 2 [10, 20] 2 [10, 30]
  exact h.2.1 (Or.inr (by decide))

/-- The trace the claim says the handler hands to `Add`: the unwound frames
with the unwound depth when the first unwound frame equals the context pc,
else the context pc followed by the unwound frames with depth one larger. -/
def claimedTrace (pc : Nat) (frames : List Nat) : Nat × List Nat :=
  if frames.head? = some pc then (frames.length, frames)
  else (frames.length + 1, pc :: frames)

theorem handlerTrace_eq_claimedTrace (pc : Nat) (frames : List Nat) :
    handlerTrace pc frames = claimedTrace pc frames := by
  unfold handlerTrace claimedTrace
  by_cases h : frames.head? = some pc
  · have hlen : 0 < frames.length := by
      cases frames
      · simp at h
      · simp
    rw [if_pos ⟨hlen, h⟩, if_pos h]
  · rw [if_neg (fun hc => h hc.2), if_neg h]

/-- C3: the signal handler calls the collector's `Add` exactly once when no
filter is set or the filter applied to the stored argument returns nonzero,
and never calls it otherwise; the delivered trace is the unwound frames with
the unwound depth when the first unwound frame equals the context pc, else
the context pc followed by the unwound frames with depth incremented. -/
theorem claim_C3 (filter : Option (Nat → Int)) (arg pc : Nat) (frames : List Nat) :
    (filter = none →
        prof_handler filter arg pc frames = some (claimedTrace pc frames))
    ∧ (∀ f, filter = some f → f arg ≠ 0 →
        prof_handler filter arg pc frames = some (claimedTrace pc frames))
    ∧ (∀ f, filter = some f → f arg = 0 →
        prof_handler filter arg pc frames = none) := by
  refine ⟨?pa, ?pb, ?pc⟩
  · rintro rfl
    unfold prof_handler
    rw [handlerTrace_eq_claimedTrace]
  · rintro f rfl hf
    show (if f arg ≠ 0 then some (handlerTrace pc frames) else none)
        = some (claimedTrace pc frames)
    rw [if_pos hf, handlerTrace_eq_claimedTrace]
  · rintro f rfl hf
    show (if f arg ≠ 0 then some (handlerTrace pc frames) else none) = none
    rw [if_neg (fun hc => hc hf)]

theorem claim_C3_witness :
    prof_handler (some (fun _ => (1 : Int))) 0 7 [7, 8] = some (2, [7, 8])
    ∧ prof_handler none 0 7 [9, 8] = some (3, [7, 9, 8])
    ∧ prof_handler (some (fun _ => (0 : Int))) 0 7 [9, 8] = none := by
  refine ⟨?a, ?b, ?c⟩
  · have h := (claim_C3 (some (fun _ => (1 : Int))) 0 7 [7, 8]).2.1
      (fun _ => (1 : Int)) rfl (by norm_num)
    rw [h]
    rfl
  · have h := (claim_C3 none 0 7 [9, 8]).1 rfl
    rw [h]
    rfl
  · exact (claim_C3 (some (fun _ => (0 : Int))) 0 7 [9, 8]).2.2
      (fun _ => (0 : Int)) rfl rfl

/-- C4: starting an already-enabled sampler fails and has no side effects:
the state is returned unchanged (collector, filter, filter argument, handler
registration) and no side-effect event is performed. -/
theorem claim_C4 (p : CpuProfiler) (fname : String) (options : Option ProfilerOptions)
    (freq : Nat) (h : p.collector.enabled = true) :
    CpuProfiler.Start p fname options freq = (false, p, []) := by
  unfold CpuProfiler.Start
  rw [if_pos h]

def profilerEnabled : CpuProfiler :=
  { collector := { enabled := true, fname := "prof.out", frequency := 100,
                   start_time := 3, samples_gathered := 5 },
    filter := none, filter_arg := 0, handler_registered := true }

theorem claim_C4_witness :
    CpuProfiler.Start profilerEnabled "other.out" none 250 = (false, profilerEnabled, []) :=
  claim_C4 profilerEnabled "other.out" none 250 rfl

/-- C5: stopping or flushing a sampler whose collector is disabled is a
silent no-op: the state is unchanged and no callback is uninstalled or
installed and the collector is neither stopped nor flushed. -/
theorem claim_C5 (p : CpuProfiler) (h : p.collector.enabled = false) :
    CpuProfiler.Stop p = (p, []) ∧ CpuProfiler.FlushTable p = (p, []) := by
  unfold CpuProfiler.Stop CpuProfiler.FlushTable
  rw [h]
  simp

def profilerDisabled : CpuProfiler :=
  { collector := { enabled := false, fname := "prof.out", frequency := 100,
                   start_time := 3, samples_gathered := 5 },
    filter := none, filter_arg := 0, handler_registered := false }

theorem claim_C5_witness :
    CpuProfiler.Stop profilerDisabled = (profilerDisabled, [])
    ∧ CpuProfiler.FlushTable profilerDisabled = (profilerDisabled, []) :=
  claim_C5 profilerDisabled rfl

/-- C6: at initialization with the profile path set and the toggle-signal
variable parsing outside 1..64, the constructor raises the fatal diagnostic;
in particular no toggle handler is installed and sampling is not started. -/
theorem claim_C6 (env : CtorEnv) (f s : String)
    (h1 : env.cpuprofile = some f) (h2 : env.uid_matches = true)
    (h3 : env.cpuprofilesignal = some s)
    (h4 : strtol10 s < 1 ∨ 64 < strtol10 s) :
    cpuProfilerCtor env = .fatalDiag "Signal number is invalid"
    ∧ (∀ sig, cpuProfilerCtor env ≠ .toggleInstalled sig)
    ∧ (∀ fn, cpuProfilerCtor env ≠ .autoStart fn) := by
  have hmain : cpuProfilerCtor env = .fatalDiag "Signal number is invalid" := by
    unfold cpuProfilerCtor
    rw [h1, h2, h3]
    simp only [Bool.not_true, Bool.false_eq_true, if_false]
    rw [if_neg (by omega)]
  refine ⟨hmain, ?pb, ?pc⟩
  · intro sig hx
    rw [hmain] at hx
    cases hx
  · intro fn hx
    rw [hmain] at hx
    cases hx

def envSig99 : CtorEnv :=
  { cpuprofile := some "/tmp/prof", uid_matches := true,
    cpuprofilesignal := some "99", signal_taken := false,
    unique_path := some "/tmp/prof.0" }

theorem claim_C6_witness :
    cpuProfilerCtor envSig99 = CtorOutcome.fatalDiag "Signal number is invalid" :=
  (claim_C6 envSig99 "/tmp/prof" "99" rfl rfl rfl (Or.inr (by decide))).1

theorem writeName_length (kBufSize : Nat) (buf name : List Char)
    (hbuf : buf.length = kBufSize) : (writeName kBufSize buf name).length = kBufSize := by
  unfold writeName
  rw [List.length_set, List.length_append, List.length_take, List.length_drop,
    List.length_append]
  simp only [List.length_cons, List.length_nil]
  omega

theorem writeName_nul_at_len (kBufSize : Nat) (buf name : List Char)
    (hbuf : buf.length = kBufSize) (hle : name.length + 1 ≤ kBufSize) :
    (writeName kBufSize buf name)[name.length]? = some NUL := by
  unfold writeName
  by_cases hlast : name.length = kBufSize - 1
  · rw [hlast.symm]
    apply List.getElem?_set_self
    rw [List.length_append, List.length_take, List.length_drop, List.length_append]
    simp only [List.length_cons, List.length_nil]
    omega
  · rw [List.getElem?_set_ne (fun hh => hlast hh.symm)]
    have hn : min kBufSize (name.length + 1) = name.length + 1 := by omega
    rw [hn]
    rw [List.getElem?_append_left (by
      rw [List.length_take, List.length_append]
      simp only [List.length_cons, List.length_nil]
      omega)]
    rw [List.getElem?_take_of_lt (by omega)]
    exact List.getElem?_concat_length name NUL

theorem writeName_nul_last (kBufSize : Nat) (buf name : List Char)
    (hbuf : buf.length = kBufSize) (hpos : 0 < kBufSize) :
    (writeName kBufSize buf name)[kBufSize - 1]? = some NUL := by
  unfold writeName
  apply List.getElem?_set_self
  rw [List.length_append, List.length_take, List.length_drop, List.length_append]
  simp only [List.length_cons, List.length_nil]
  omega

/-- C10: for every collector profile name, including names at least as long
as the fixed-size output buffer, the `profile_name` written by
`GetCurrentState` stays exactly the buffer's length (nothing is written past
the end) and carries a NUL terminator inside the buffer. -/
theorem claim_C10 (kBufSize : Nat) (buf name ptrBytes : List Char)
    (hbuf : buf.length = kBufSize) (hpos : 0 < kBufSize) (hptr : ptrBytes.length = 8) :
    (GetCurrentStateName kBufSize buf name ptrBytes).length = kBufSize
    ∧ ∃ i, i < kBufSize ∧ (GetCurrentStateName kBufSize buf name ptrBytes)[i]? = some NUL := by
  have hwl := writeName_length kBufSize buf name hbuf
  unfold GetCurrentStateName
  by_cases hsec : name.length + 1 + 8 ≤ kBufSize
  · rw [if_pos hsec]
    constructor
    · rw [List.length_append, List.length_append, List.length_take, List.length_drop,
        hwl, hptr]
      omega
    · refine ⟨name.length, by omega, ?ht⟩
      rw [List.getElem?_append_left (by
        rw [List.length_append, List.length_take, hwl]
        omega)]
      rw [List.getElem?_append_left (by rw [List.length_take, hwl]; omega)]
      rw [List.getElem?_take_of_lt (by omega)]
      exact writeName_nul_at_len kBufSize buf name hbuf (by omega)
  · rw [if_neg hsec]
    refine ⟨hwl, ?he⟩
    by_cases hle : name.length + 1 ≤ kBufSize
    · exact ⟨name.length, by omega, writeName_nul_at_len kBufSize buf name hbuf hle⟩
    · exact ⟨kBufSize - 1, by omega, writeName_nul_last kBufSize buf name hbuf hpos⟩

theorem claim_C10_witness :
    (GetCurrentStateName 4 ['a', 'b', 'c', 'd'] ['x', 'y', 'z', 'w', 'q'] 
        ['0', '1', '2', '3', '4', '5', '6', '7']).length = 4
    ∧ ∃ i, i < 4 ∧ (GetCurrentStateName 4 ['a', 'b', 'c', 'd'] ['x', 'y', 'z', 'w', 'q']
        ['0', '1', '2', '3', '4', '5', '6', '7'])[i]? = some NUL :=
  claim_C10 4 ['a', 'b', 'c', 'd'] ['x', 'y', 'z', 'w', 'q']
    ['0', '1', '2', '3', '4', '5', '6', '7'] rfl (by norm_num) rfl

def mapC1 : List (Nat × AllocValue) :=
  [(4096, AllocValue.mk 65 16), (8192, AllocValue.mk 64 32)]

theorem claim_C1_witness :
    (8192, AllocValue.mk 64 32) ∈ (NonLiveSnapshot mapC1 none).1.map
    ∧ ¬((4096, AllocValue.mk 65 16) ∈ (NonLiveSnapshot mapC1 none).1.map) := by
  have h := claim_C1 mapC1 none
  constructor
  · exact (h.1 8192 (AllocValue.mk 64 32)).mpr (by decide)
  · intro hmem
    exact absurd ((h.1 4096 (AllocValue.mk 65 16)).mp hmem) (by decide)

theorem claim_C7_witness :
    (addEntries emptySnapshot
        [(4096, AllocValue.mk 8 64), (8192, AllocValue.mk 8 128)]).total.allocs = 2
    ∧ (addEntries emptySnapshot
        [(4096, AllocValue.mk 8 64), (8192, AllocValue.mk 8 128)]).total.alloc_size = 192 := by
  have h := claim_C7 [(4096, AllocValue.mk 8 64), (8192, AllocValue.mk 8 128)]
  exact ⟨h.1.trans (by decide), h.2.trans (by decide)⟩
